import Mathlib

/-!
# SimpleStage — verified model of the warehouse inventory dashboard

Shallow embedding of the two source files of the repository:

* `src/inventory_api.js` — an Express API over a single `items` table.
  The table is modelled as a `List Row`; each endpoint handler becomes a
  pure function from the store (and the request data) to the new store
  and the JSON response.
* `src/index.tsx` — the React dashboard.  Its local component state
  (`items`, `newItem`, `editingItem`) becomes `ClientState`; each event
  handler becomes a pure state-transition function, with the outcome of
  a `fetch` passed in explicitly (`FetchOutcome`).

JavaScript `undefined` on the optional fields (`missing?`, `damaged?`,
`notes?`) is modelled with `Option`; JS truthiness of those fields
(`!item[type]`, `field?.toLowerCase() || ""`) is reproduced with
`Option.getD`.  `toLowerCase` is modelled per-character on the ASCII
range, which covers every string the program manipulates.
-/

namespace SimpleStage

/-- The client-side `Item` interface of `src/index.tsx` (lines 3–13).
`missing`, `damaged` and `notes` are optional there, hence `Option`. -/
structure Item where
  id : Nat
  name : String
  description : String
  barcode : String
  quantity : Int
  photo_url : String
  missing : Option Bool
  damaged : Option Bool
  notes : Option String
  deriving DecidableEq, Repr

/-- A stored database row of the `items` table: all eight mutable columns
are concrete (the API always writes concrete values). -/
structure Row where
  id : Nat
  name : String
  description : String
  barcode : String
  quantity : Int
  photo_url : String
  missing : Bool
  damaged : Bool
  notes : String
  deriving DecidableEq, Repr

/-- Request body of `PUT /items/:id`: the eight mutable fields destructured
from `req.body` in `src/inventory_api.js` line 27. -/
structure PutBody where
  name : String
  description : String
  barcode : String
  quantity : Int
  photo_url : String
  missing : Bool
  damaged : Bool
  notes : String
  deriving DecidableEq, Repr

/-- Request body of `POST /items`: `missing`, `damaged`, `notes` may be
absent; the handler defaults them (`src/inventory_api.js` lines 74–83). -/
structure PostBody where
  name : String
  description : String
  barcode : String
  quantity : Int
  photo_url : String
  missing : Option Bool
  damaged : Option Bool
  notes : Option String
  deriving DecidableEq, Repr

/-- Response of `PUT /items/:id`: `404 {error}` when no row matched,
otherwise the updated row as JSON (status 200). -/
inductive PutResp
  | notFound
  | ok (row : Row)
  deriving DecidableEq, Repr

/-- HTTP status code carried by a `PutResp`. -/
def PutResp.status : PutResp → Nat
  | .notFound => 404
  | .ok _ => 200

/-- Response of `POST /items`: status code and created row. -/
structure CreateResp where
  status : Nat
  body : Row
  deriving DecidableEq, Repr

/-- Response of `POST /items/:id/update-quantity`:
`res.json({ success: true, item: result.rows[0] })` with the implicit
Express status 200; `rows[0]` of an empty result is `undefined` (`none`). -/
structure QtyResp where
  status : Nat
  success : Bool
  item : Option Row
  deriving DecidableEq, Repr

/-- `GET /items` — `SELECT * FROM items` returns every row
(`src/inventory_api.js` lines 13–21). -/
def getItems (store : List Row) : List Row := store

/-- The `SET` clause of the `UPDATE` in `PUT /items/:id`: rewrite all
eight mutable columns from the request body, keeping `id`. -/
def replaceFields (b : PutBody) (r : Row) : Row :=
  { r with
    name := b.name, description := b.description, barcode := b.barcode,
    quantity := b.quantity, photo_url := b.photo_url,
    missing := b.missing, damaged := b.damaged, notes := b.notes }

/-- The store after the `UPDATE` of `PUT /items/:id`: every row whose
`id` matches is rewritten from the body, the others are untouched. -/
def putStore (store : List Row) (id : Nat) (b : PutBody) : List Row :=
  store.map fun r => if r.id = id then replaceFields b r else r

/-- `PUT /items/:id` (`src/inventory_api.js` lines 24–53): update every
row whose `id` matches, `RETURNING *`; respond 404 when
`result.rows.length === 0`, otherwise `result.rows[0]`. -/
def putItems (store : List Row) (id : Nat) (b : PutBody) : List Row × PutResp :=
  match (putStore store id b).filter (fun r => r.id == id) with
  | [] => (putStore store id b, PutResp.notFound)
  | row :: _ => (putStore store id b, PutResp.ok row)

/-- The store after `UPDATE items SET quantity = quantity + $1 WHERE id
= $2`: matching rows get the signed delta added, unclamped. -/
def qtyStore (store : List Row) (id : Nat) (delta : Int) : List Row :=
  store.map fun r =>
    if r.id = id then { r with quantity := r.quantity + delta } else r

/-- `POST /items/:id/update-quantity` (`src/inventory_api.js` lines
56–69): `UPDATE items SET quantity = quantity + $1 WHERE id = $2
RETURNING *`, then `{ success: true, item: result.rows[0] }` with no
not-found check (`rows[0]` of an empty result is `undefined`). -/
def updateQuantity (store : List Row) (id : Nat) (delta : Int) : List Row × QtyResp :=
  (qtyStore store id delta,
   { status := 200, success := true,
     item := ((qtyStore store id delta).filter (fun r => r.id == id)).head? })

/-- `POST /items` (`src/inventory_api.js` lines 72–101): insert one row
built from the body with defaults `missing = false`, `damaged = false`,
`notes = ""`; the store assigns the fresh id `nextId`; respond 201 with
the created row. -/
def postItems (store : List Row) (nextId : Nat) (b : PostBody) : List Row × CreateResp :=
  let row : Row :=
    { id := nextId, name := b.name, description := b.description,
      barcode := b.barcode, quantity := b.quantity, photo_url := b.photo_url,
      missing := b.missing.getD false, damaged := b.damaged.getD false,
      notes := b.notes.getD "" }
  (store ++ [row], { status := 201, body := row })

/-! ## Dashboard UI (`src/index.tsx`) -/

/-- Which status button was pressed: the `type` argument of
`handleMissingOrDamaged`. -/
inductive StatusType
  | missing
  | damaged
  deriving DecidableEq, Repr

/-- The flag of an item selected by a `StatusType` (`item[type]`). -/
def Item.getFlag (item : Item) : StatusType → Option Bool
  | .missing => item.missing
  | .damaged => item.damaged

/-- The other status flag. -/
def StatusType.other : StatusType → StatusType
  | .missing => .damaged
  | .damaged => .missing

/-- The record built by `handleMissingOrDamaged` (`src/index.tsx` lines
77–86): `newValue = !item[type]` (JS truthiness: `undefined` counts as
false), the selected flag becomes `newValue`, the other flag is cleared
to `false`, and `notes` is `"Updated status"` when turning on, `""` when
turning off. -/
def toggleStatus (item : Item) (t : StatusType) : Item :=
  match t with
  | .missing =>
    let newValue := !(item.missing.getD false)
    { item with
      missing := some newValue, damaged := some false,
      notes := some (if newValue then "Updated status" else "") }
  | .damaged =>
    let newValue := !(item.damaged.getD false)
    { item with
      damaged := some newValue, missing := some false,
      notes := some (if newValue then "Updated status" else "") }

/-- `handleMissingOrDamaged` (`src/index.tsx` lines 70–90): find the item
by id in the local list; when absent return without effect, otherwise
build the toggled record (which is then persisted via `updateItem`). -/
def handleMissingOrDamaged (items : List Item) (id : Nat) (t : StatusType) : Option Item :=
  match items.find? (fun item => item.id == id) with
  | none => none
  | some item => some (toggleStatus item t)

/-- ASCII model of JS `toLowerCase` (`String.prototype.toLowerCase`),
applied character by character. -/
def lowerStr (s : String) : String := String.mk (s.data.map Char.toLower)

/-- `field?.toString().toLowerCase() || ""` (`src/index.tsx` line 127):
a null/undefined field becomes `""`; a string is lowercased (`|| ""` only
re-maps the already-empty string to itself). -/
def lowerField : Option String → String
  | none => ""
  | some s => lowerStr s

/-- `needle` starts the list `hay` (character-level). -/
def startsWithChars : List Char → List Char → Bool
  | [], _ => true
  | _ :: _, [] => false
  | a :: as, b :: bs => a == b && startsWithChars as bs

/-- `needle` occurs contiguously in `hay` (character-level). -/
def hasSubChars : List Char → List Char → Bool
  | needle, [] => needle.isEmpty
  | needle, c :: rest => startsWithChars needle (c :: rest) || hasSubChars needle rest

/-- JS `hay.includes(needle)`: substring containment. -/
def strIncludes (hay needle : String) : Bool :=
  hasSubChars needle.data hay.data

/-- The search predicate of `filteredItems` (`src/index.tsx` lines
125–129): lowercase the four fields name/description/barcode/notes and
keep the item when `some` field contains the lowercased query. -/
def matchesSearch (item : Item) (search : String) : Bool :=
  (([some item.name, some item.description, some item.barcode, item.notes].map
      lowerField).any
    fun field => strIncludes field (lowerStr search))

/-- `filteredItems` (`src/index.tsx` line 125): the local list filtered
by the search predicate. -/
def filteredItems (items : List Item) (search : String) : List Item :=
  items.filter fun item => matchesSearch item search

/-- The new-item draft: `Omit<Item, "id">`, the shape of the `newItem`
state (`src/index.tsx` lines 19–28). -/
structure Draft where
  name : String
  description : String
  barcode : String
  quantity : Int
  photo_url : String
  missing : Option Bool
  damaged : Option Bool
  notes : Option String
  deriving DecidableEq, Repr

/-- The initial / reset value of the draft (`src/index.tsx` lines 19–28
and 109–118). -/
def initialDraft : Draft :=
  { name := "", description := "", barcode := "", quantity := 0,
    photo_url := "", missing := some false, damaged := some false,
    notes := some "" }

/-- The full local component state of `InventoryDashboard`. -/
structure ClientState where
  items : List Item
  draft : Draft
  editing : Option Item
  deriving DecidableEq, Repr

/-- Outcome of a `fetch`: a rejection or a non-ok HTTP status both land
in the `catch` block (`failure`); otherwise the parsed JSON payload. -/
inductive FetchOutcome (α : Type)
  | failure
  | success (value : α)
  deriving DecidableEq, Repr

/-- `updateItem` (`src/index.tsx` lines 45–67): PUT `sent`; on failure
only `console.error` runs, so the state is untouched; on success every
list entry whose id equals the returned record's id is replaced by it and
`editingItem` is cleared. -/
def runUpdateItem (st : ClientState) (_sent : Item) (outcome : FetchOutcome Item) :
    ClientState :=
  match outcome with
  | .failure => st
  | .success updatedData =>
    { st with
      items := st.items.map fun item =>
        if item.id = updatedData.id then updatedData else item,
      editing := none }

/-- `addItem` (`src/index.tsx` lines 93–122): POST the draft; on failure
the state is untouched; on success the created record is appended and the
draft is reset to its initial value. -/
def runAddItem (st : ClientState) (outcome : FetchOutcome Item) : ClientState :=
  match outcome with
  | .failure => st
  | .success createdItem =>
    { st with items := st.items ++ [createdItem], draft := initialDraft }

/-- The client-side single-item operations of the dashboard: the two
status toggles and the edit-form `onChange` handlers (`src/index.tsx`
lines 237–283); the quantity handler clamps with `Math.max(0, ·)`. -/
inductive ClientOp
  | toggleMissing
  | toggleDamaged
  | setName (s : String)
  | setDescription (s : String)
  | setBarcode (s : String)
  | setQuantity (n : Int)
  | setNotes (s : String)
  deriving DecidableEq, Repr

/-- Apply one client-side operation to an item. -/
def applyClientOp (item : Item) : ClientOp → Item
  | .toggleMissing => toggleStatus item .missing
  | .toggleDamaged => toggleStatus item .damaged
  | .setName s => { item with name := s }
  | .setDescription s => { item with description := s }
  | .setBarcode s => { item with barcode := s }
  | .setQuantity n => { item with quantity := max 0 n }
  | .setNotes s => { item with notes := some s }

/-- The quantity `onChange` of the create form (`src/index.tsx` lines
163–174): `Math.max(0, Number(value))`. -/
def setDraftQuantity (d : Draft) (n : Int) : Draft :=
  { d with quantity := max 0 n }

/-- At most one of the two status flags of a client item is set
(JS truthiness: an absent flag counts as false). -/
def Item.atMostOneFlag (item : Item) : Bool :=
  !(item.missing.getD false && item.damaged.getD false)

/-- At most one of the two status flags of a stored row is set. -/
def Row.atMostOneFlag (r : Row) : Bool :=
  !(r.missing && r.damaged)

/-! ## Concrete sample data used to instantiate the theorems -/

/-- A sample client item: currently damaged, not missing. -/
def itemD : Item :=
  { id := 1, name := "Widget", description := "small", barcode := "b1",
    quantity := 5, photo_url := "", missing := some false,
    damaged := some true, notes := some "x" }

/-- A sample edited version of `itemD` (same id, new name). -/
def itemD2 : Item := { itemD with name := "New name" }

/-- A sample client state holding `itemD`, with `itemD` being edited. -/
def stD : ClientState :=
  { items := [itemD], draft := initialDraft, editing := some itemD }

/-- A sample stored row with quantity 5 and id 1. -/
def rowQ5 : Row :=
  { id := 1, name := "widget", description := "", barcode := "b1",
    quantity := 5, photo_url := "", missing := false, damaged := false,
    notes := "" }

/-- A sample `PUT` body. -/
def putBodyD : PutBody :=
  { name := "renamed", description := "desc", barcode := "b9",
    quantity := 3, photo_url := "u", missing := true, damaged := false,
    notes := "n" }

/-! ## Theorems -/

/-- C1: the record built by `handleMissingOrDamaged` carries the negation
of the toggled flag's previous (truthy) value, the other flag cleared to
`false`, and `notes = "Updated status"` when the flag turns on and `""`
when it turns off; in particular, toggling `missing` on an item with
`damaged = true` (and `missing` off) yields `missing = true`,
`damaged = false`, `notes = "Updated status"`, and toggling it back
yields `missing = false`, `notes = ""`. -/
theorem toggle_missing_or_damaged_spec (item : Item) (t : StatusType) :
    (toggleStatus item t).getFlag t = some (!((item.getFlag t).getD false))
    ∧ (toggleStatus item t).getFlag t.other = some false
    ∧ (toggleStatus item t).notes =
        some (if (item.getFlag t).getD false then "" else "Updated status")
    ∧ (item.missing.getD false = false → item.damaged = some true →
        (toggleStatus item .missing).missing = some true
        ∧ (toggleStatus item .missing).damaged = some false
        ∧ (toggleStatus item .missing).notes = some "Updated status"
        ∧ (toggleStatus (toggleStatus item .missing) .missing).missing = some false
        ∧ (toggleStatus (toggleStatus item .missing) .missing).notes = some "") := by
  refine ⟨?_, ?_, ?_, ?_⟩
  · cases t <;> simp [toggleStatus, Item.getFlag, StatusType.other]
  · cases t <;> simp [toggleStatus, Item.getFlag, StatusType.other]
  · cases t
    · cases hm : item.missing.getD false <;>
        simp [toggleStatus, Item.getFlag, hm]
    · cases hm : item.damaged.getD false <;>
        simp [toggleStatus, Item.getFlag, hm]
  · intro h1 _
    simp [toggleStatus, h1]

/-- Witness for C1: instantiating at `itemD` (damaged, not missing),
toggling `missing` on and then off again. -/
theorem toggle_missing_or_damaged_spec_witness :
    (toggleStatus itemD .missing).missing = some true
    ∧ (toggleStatus itemD .missing).damaged = some false
    ∧ (toggleStatus itemD .missing).notes = some "Updated status"
    ∧ (toggleStatus (toggleStatus itemD .missing) .missing).missing = some false
    ∧ (toggleStatus (toggleStatus itemD .missing) .missing).notes = some "" :=
  (toggle_missing_or_damaged_spec itemD StatusType.missing).2.2.2
    (by decide) (by decide)

/-- C2: the mutual-exclusivity invariant is client-enforced: any record
built by `handleMissingOrDamaged` has at most one flag set outright;
every other client-side operation preserves an already-valid pair of
flags; and the store keeps exactly the flags it is sent (`POST` applies
only the documented defaults, `PUT` copies the body flags verbatim). -/
theorem at_most_one_flag_invariant :
    (∀ (item : Item) (op : ClientOp),
      item.atMostOneFlag = true → (applyClientOp item op).atMostOneFlag = true)
    ∧ (∀ (item : Item) (t : StatusType), (toggleStatus item t).atMostOneFlag = true)
    ∧ (∀ (store : List Row) (nextId : Nat) (b : PostBody),
        (postItems store nextId b).2.body.missing = b.missing.getD false
        ∧ (postItems store nextId b).2.body.damaged = b.damaged.getD false)
    ∧ (∀ (b : PutBody) (r : Row),
        (replaceFields b r).missing = b.missing
        ∧ (replaceFields b r).damaged = b.damaged) := by
  refine ⟨?_, ?_, fun _ _ _ => ⟨rfl, rfl⟩, fun _ _ => ⟨rfl, rfl⟩⟩
  · intro item op h
    cases op <;> simp_all [applyClientOp, toggleStatus, Item.atMostOneFlag]
  · intro item t
    cases t <;> simp [toggleStatus, Item.atMostOneFlag]

/-- Witness for C2: toggling `damaged` on `itemD` keeps at most one flag set. -/
theorem at_most_one_flag_invariant_witness :
    (applyClientOp itemD ClientOp.toggleDamaged).atMostOneFlag = true :=
  at_most_one_flag_invariant.1 itemD ClientOp.toggleDamaged (by decide)

/-- C7: when a `fetch` rejects or returns a non-ok status, both mutation
handlers land in their `catch` block: the items list, the new-item draft
and the editing state are all left exactly as they were (the whole
client state is unchanged). -/
theorem mutation_failure_aborts (st : ClientState) (sent : Item) :
    runUpdateItem st sent FetchOutcome.failure = st
    ∧ (runUpdateItem st sent FetchOutcome.failure).items = st.items
    ∧ (runUpdateItem st sent FetchOutcome.failure).draft = st.draft
    ∧ (runUpdateItem st sent FetchOutcome.failure).editing = st.editing
    ∧ runAddItem st FetchOutcome.failure = st
    ∧ (runAddItem st FetchOutcome.failure).items = st.items
    ∧ (runAddItem st FetchOutcome.failure).draft = st.draft
    ∧ (runAddItem st FetchOutcome.failure).editing = st.editing :=
  ⟨rfl, rfl, rfl, rfl, rfl, rfl, rfl, rfl⟩

/-- C10: on the success path of `updateItem` the items list keeps its
length, each position holds the server-returned record exactly when its
previous occupant's id matches the returned record's id (and its previous
occupant otherwise), and the editing state is cleared. -/
theorem update_success_frame (st : ClientState) (sent updatedData : Item) :
    (runUpdateItem st sent (FetchOutcome.success updatedData)).items.length
        = st.items.length
    ∧ (∀ (i : Nat) (h : i < st.items.length)
        (h' : i < (runUpdateItem st sent (FetchOutcome.success updatedData)).items.length),
        (runUpdateItem st sent (FetchOutcome.success updatedData)).items.get ⟨i, h'⟩
          = if (st.items.get ⟨i, h⟩).id = updatedData.id then updatedData
            else st.items.get ⟨i, h⟩)
    ∧ (runUpdateItem st sent (FetchOutcome.success updatedData)).editing = none := by
  refine ⟨by simp [runUpdateItem], ?_, rfl⟩
  intro i h h'
  simp [runUpdateItem, List.get_eq_getElem, List.getElem_map]

/-- Witness for C10: replacing `itemD` (id 1) by the edited `itemD2`
(same id) puts `itemD2` at position 0 and clears the editing state. -/
theorem update_success_frame_witness :
    (runUpdateItem stD itemD2 (FetchOutcome.success itemD2)).items.get
        ⟨0, by decide⟩ = itemD2
    ∧ (runUpdateItem stD itemD2 (FetchOutcome.success itemD2)).editing = none := by
  have h := update_success_frame stD itemD2 itemD2
  have h2 := h.2.1 0 (by decide) (by decide)
  exact ⟨h2.trans (by decide), h.2.2⟩

/-- `replaceFields` keeps the row id (only the eight mutable columns are
in the `SET` clause). -/
theorem replaceFields_id (b : PutBody) (r : Row) : (replaceFields b r).id = r.id :=
  rfl

/-- Filtering the updated store of `PUT /items/:id` for the id equals
updating the rows of the original store that match the id. -/
theorem put_filter_comm (store : List Row) (id : Nat) (b : PutBody) :
    (putStore store id b).filter (fun r => r.id == id)
      = (store.filter fun r => r.id == id).map (replaceFields b) := by
  induction store with
  | nil => rfl
  | cons a as ih =>
    by_cases h : a.id = id
    · simp [putStore, List.filter_cons, h, replaceFields_id] at ih ⊢
      exact ih
    · simp [putStore, List.filter_cons, h] at ih ⊢
      exact ih

/-- In a store with pairwise-distinct ids, filtering for the id of a
member row returns exactly that row. -/
theorem filter_id_eq_singleton (store : List Row) (r : Row)
    (hnodup : (store.map Row.id).Nodup) (hmem : r ∈ store) :
    store.filter (fun x => x.id == r.id) = [r] := by
  induction store with
  | nil => cases hmem
  | cons a as ih =>
    rw [List.map_cons, List.nodup_cons] at hnodup
    rcases List.mem_cons.mp hmem with h | h
    · subst h
      have hnone : ∀ x ∈ as, ¬((x.id == r.id) = true) := by
        intro x hx hbe
        exact hnodup.1 ((beq_iff_eq.mp hbe) ▸ List.mem_map_of_mem Row.id hx)
      simp [List.filter_cons, List.filter_eq_nil_iff.mpr hnone]
    · have ha : ¬((a.id == r.id) = true) := by
        intro hbe
        refine hnodup.1 ?_
        rw [beq_iff_eq.mp hbe]
        exact List.mem_map_of_mem Row.id h
      simp [List.filter_cons, ha, ih hnodup.2 h]

/-- Filtering the updated store of `update-quantity` for the id equals
updating the rows of the original store that match the id. -/
theorem qty_filter_comm (store : List Row) (id : Nat) (delta : Int) :
    (qtyStore store id delta).filter (fun x => x.id == id)
      = (store.filter fun x => x.id == id).map
          (fun x => { x with quantity := x.quantity + delta }) := by
  induction store with
  | nil => rfl
  | cons a as ih =>
    by_cases h : a.id = id
    · simp [qtyStore, List.filter_cons, h] at ih ⊢
      exact ih
    · simp [qtyStore, List.filter_cons, h] at ih ⊢
      exact ih

/-- When no row matches the id, the quantity update leaves the store
unchanged. -/
theorem qtyStore_eq_self (store : List Row) (id : Nat) (delta : Int) :
    (∀ r ∈ store, r.id ≠ id) → qtyStore store id delta = store := by
  induction store with
  | nil => intro _; rfl
  | cons a as ih =>
    intro h
    have ha := h a (List.mem_cons_self a as)
    have has := ih fun r hr => h r (List.mem_cons_of_mem a hr)
    simp only [qtyStore, List.map_cons] at has ⊢
    rw [if_neg ha, has]

/-- C3: `PUT /items/:id` responds 404 exactly when no stored row has the
given id; when it responds with a row, that row carries the given id, its
eight mutable fields equal the request body exactly, and it is stored (a
subsequent `GET /items` contains it). -/
theorem put_items_spec (store : List Row) (id : Nat) (b : PutBody) :
    ((putItems store id b).2 = PutResp.notFound ↔ ∀ r ∈ store, r.id ≠ id)
    ∧ ((putItems store id b).2.status = 404 ↔ ∀ r ∈ store, r.id ≠ id)
    ∧ ∀ row, (putItems store id b).2 = PutResp.ok row →
        row.id = id ∧ row.name = b.name ∧ row.description = b.description
        ∧ row.barcode = b.barcode ∧ row.quantity = b.quantity
        ∧ row.photo_url = b.photo_url ∧ row.missing = b.missing
        ∧ row.damaged = b.damaged ∧ row.notes = b.notes
        ∧ row ∈ getItems (putItems store id b).1 := by
  have hcomm := put_filter_comm store id b
  cases hfe : store.filter (fun r => r.id == id) with
  | nil =>
    have hall : ∀ r ∈ store, r.id ≠ id := by
      intro r hr he
      have hmem : r ∈ store.filter (fun r => r.id == id) :=
        List.mem_filter.mpr ⟨hr, by simp [he]⟩
      rw [hfe] at hmem
      cases hmem
    have hput : putItems store id b = (putStore store id b, PutResp.notFound) := by
      unfold putItems
      rw [hcomm, hfe]
      rfl
    rw [hput]
    exact ⟨⟨fun _ => hall, fun _ => rfl⟩, ⟨fun _ => hall, fun _ => rfl⟩,
      fun row hrow => PutResp.noConfusion hrow⟩
  | cons r0 rest =>
    have hmem0 : r0 ∈ store.filter (fun r => r.id == id) := by
      rw [hfe]
      exact List.mem_cons_self r0 rest
    have hr0 := List.mem_filter.mp hmem0
    have hid : r0.id = id := by simpa using hr0.2
    have hput : putItems store id b
        = (putStore store id b, PutResp.ok (replaceFields b r0)) := by
      unfold putItems
      rw [hcomm, hfe, List.map_cons]
    have hmem : replaceFields b r0 ∈ putStore store id b := by
      have heq : (if r0.id = id then replaceFields b r0 else r0)
          = replaceFields b r0 := if_pos hid
      exact heq ▸ List.mem_map_of_mem _ hr0.1
    rw [hput]
    refine ⟨⟨fun h => PutResp.noConfusion h, fun h => absurd hid (h r0 hr0.1)⟩,
      ⟨fun h => by simp [PutResp.status] at h, fun h => absurd hid (h r0 hr0.1)⟩,
      ?_⟩
    intro row hrow
    have hr : replaceFields b r0 = row := by
      injection hrow
    subst hr
    exact ⟨replaceFields_id b r0 ▸ hid, rfl, rfl, rfl, rfl, rfl, rfl, rfl, rfl, hmem⟩

/-- Witness for C3: a PUT on the unknown id 2 of a one-row store is 404;
a PUT on the known id 1 returns a row equal to the body. -/
theorem put_items_spec_witness :
    (putItems [rowQ5] 2 putBodyD).2 = PutResp.notFound
    ∧ ∀ row, (putItems [rowQ5] 1 putBodyD).2 = PutResp.ok row →
        row.name = putBodyD.name ∧ row ∈ getItems (putItems [rowQ5] 1 putBodyD).1 := by
  refine ⟨(put_items_spec [rowQ5] 2 putBodyD).1.mpr (by decide), ?_⟩
  intro row hrow
  have h := (put_items_spec [rowQ5] 1 putBodyD).2.2 row hrow
  exact ⟨h.2.1, h.2.2.2.2.2.2.2.2.2⟩

/-- C4: `POST /items` responds 201 with a record carrying the assigned
id, the body's values for the five always-present fields, the body's
`missing`/`damaged`/`notes` when present and `false`/`false`/`""` when
absent, and the record is in the store afterwards (`GET /items`
includes it). -/
theorem post_items_spec (store : List Row) (nextId : Nat) (b : PostBody) :
    (postItems store nextId b).2.status = 201
    ∧ (postItems store nextId b).2.body.id = nextId
    ∧ (postItems store nextId b).2.body.name = b.name
    ∧ (postItems store nextId b).2.body.description = b.description
    ∧ (postItems store nextId b).2.body.barcode = b.barcode
    ∧ (postItems store nextId b).2.body.quantity = b.quantity
    ∧ (postItems store nextId b).2.body.photo_url = b.photo_url
    ∧ (postItems store nextId b).2.body.missing = b.missing.getD false
    ∧ (postItems store nextId b).2.body.damaged = b.damaged.getD false
    ∧ (postItems store nextId b).2.body.notes = b.notes.getD ""
    ∧ (postItems store nextId b).2.body ∈ getItems (postItems store nextId b).1 := by
  refine ⟨rfl, rfl, rfl, rfl, rfl, rfl, rfl, rfl, rfl, rfl, ?_⟩
  simp [postItems, getItems]

/-- C5: on a store with distinct ids, `POST /items/:id/update-quantity`
for a stored row adds the signed delta to that row's quantity; the
response envelope is `{success: true}` (status 200) carrying exactly the
updated record, and the updated record is stored (`GET /items` contains
it) while rows with other ids stay in the store. -/
theorem update_quantity_spec (store : List Row) (r : Row) (delta : Int)
    (hnodup : (store.map Row.id).Nodup) (hmem : r ∈ store) :
    (updateQuantity store r.id delta).2.success = true
    ∧ (updateQuantity store r.id delta).2.status = 200
    ∧ (updateQuantity store r.id delta).2.item
        = some { r with quantity := r.quantity + delta }
    ∧ { r with quantity := r.quantity + delta }
        ∈ getItems (updateQuantity store r.id delta).1
    ∧ ∀ x ∈ store, x.id ≠ r.id → x ∈ getItems (updateQuantity store r.id delta).1 := by
  refine ⟨rfl, rfl, ?_, ?_, ?_⟩
  · show ((qtyStore store r.id delta).filter (fun x => x.id == r.id)).head? = _
    rw [qty_filter_comm store r.id delta, filter_id_eq_singleton store r hnodup hmem]
    rfl
  · have heq : (if r.id = r.id then { r with quantity := r.quantity + delta } else r)
        = { r with quantity := r.quantity + delta } := if_pos rfl
    exact heq ▸ List.mem_map_of_mem _ hmem
  · intro x hx hne
    have heq : (if x.id = r.id then { x with quantity := x.quantity + delta } else x)
        = x := if_neg hne
    exact heq ▸ List.mem_map_of_mem _ hx

/-- Witness for C5: delta −3 on the stored row of quantity 5 yields
quantity 2, both in the response envelope and in the stored collection. -/
theorem update_quantity_spec_witness :
    (updateQuantity [rowQ5] rowQ5.id (-3)).2.item
        = some { rowQ5 with quantity := rowQ5.quantity + (-3) }
    ∧ { rowQ5 with quantity := rowQ5.quantity + (-3) }
        ∈ getItems (updateQuantity [rowQ5] rowQ5.id (-3)).1
    ∧ rowQ5.quantity + (-3) = 2 := by
  have h := update_quantity_spec [rowQ5] rowQ5 (-3) (by decide) (by decide)
  exact ⟨h.2.2.1, h.2.2.2.1, by decide⟩

/-- C9: `POST /items/:id/update-quantity` on an id matching no stored row
is not an error: the response is status 200 with `success: true` and no
item payload (`rows[0]` is `undefined`), and the store is unchanged. -/
theorem update_quantity_unknown_id (store : List Row) (id : Nat) (delta : Int)
    (h : ∀ r ∈ store, r.id ≠ id) :
    updateQuantity store id delta
      = (store, { status := 200, success := true, item := none }) := by
  have hs := qtyStore_eq_self store id delta h
  have hf : store.filter (fun r => r.id == id) = [] :=
    List.filter_eq_nil_iff.mpr fun a ha => by simpa using h a ha
  unfold updateQuantity
  rw [hs, hf]
  rfl

/-- Witness for C9: id 2 matches nothing in the one-row store. -/
theorem update_quantity_unknown_id_witness :
    updateQuantity [rowQ5] 2 7
      = ([rowQ5], { status := 200, success := true, item := none }) :=
  update_quantity_unknown_id [rowQ5] 2 7 (by decide)

/-- The empty needle starts every list. -/
theorem startsWithChars_nil (l : List Char) : startsWithChars [] l = true := by
  cases l <;> rfl

/-- The empty needle occurs in every list: JS `s.includes("")` is true. -/
theorem hasSubChars_nil_needle (l : List Char) : hasSubChars [] l = true := by
  cases l with
  | nil => rfl
  | cons c rest => simp [hasSubChars, startsWithChars_nil]

/-- The empty query matches every item. -/
theorem matchesSearch_empty (item : Item) : matchesSearch item "" = true := by
  have h : ∀ f : String, strIncludes f (lowerStr "") = true := fun f =>
    hasSubChars_nil_needle f.data
  simp [matchesSearch, h]

/-- C6: the dashboard filter keeps exactly the items for which one of the
four fields name/description/barcode/notes contains the query as a
case-insensitive substring (a null/undefined field counting as the empty
string), and the empty query keeps every item. -/
theorem search_filter_spec (items : List Item) (q : String) (item : Item) :
    (item ∈ filteredItems items q ↔
      item ∈ items ∧
        (strIncludes (lowerStr item.name) (lowerStr q) = true
        ∨ strIncludes (lowerStr item.description) (lowerStr q) = true
        ∨ strIncludes (lowerStr item.barcode) (lowerStr q) = true
        ∨ strIncludes (lowerField item.notes) (lowerStr q) = true))
    ∧ filteredItems items "" = items := by
  constructor
  · simp [filteredItems, List.mem_filter, matchesSearch, lowerField]
  · exact List.filter_eq_self.mpr fun a _ => matchesSearch_empty a

/-- Witness for C6: `itemD` is kept by the query `"WIDG"` (matching its
name case-insensitively) and by the empty query. -/
theorem search_filter_spec_witness :
    itemD ∈ filteredItems [itemD] "WIDG"
    ∧ filteredItems [itemD] "" = [itemD] :=
  ⟨(search_filter_spec [itemD] "WIDG" itemD).1.mpr ⟨by decide, Or.inl (by decide)⟩,
   (search_filter_spec [itemD] "" itemD).2⟩

/-- C8: both quantity inputs (create form and edit form) store
`Math.max(0, value)` in the draft/editing state, so the submitted
quantity is non-negative; the API performs no such re-validation: the
stored quantity of a created or replaced row is exactly the body's value,
and `update-quantity` stores the unclamped sum for the matching row. -/
theorem quantity_clamp_spec (item : Item) (d : Draft) (n : Int) :
    (applyClientOp item (ClientOp.setQuantity n)).quantity = max 0 n
    ∧ 0 ≤ (applyClientOp item (ClientOp.setQuantity n)).quantity
    ∧ (setDraftQuantity d n).quantity = max 0 n
    ∧ 0 ≤ (setDraftQuantity d n).quantity
    ∧ (∀ (store : List Row) (nextId : Nat) (b : PostBody),
        (postItems store nextId b).2.body.quantity = b.quantity)
    ∧ (∀ (b : PutBody) (r : Row), (replaceFields b r).quantity = b.quantity)
    ∧ (∀ (store : List Row) (id : Nat) (delta : Int) (x : Row),
        x ∈ store → x.id = id →
          { x with quantity := x.quantity + delta }
            ∈ getItems (updateQuantity store id delta).1) := by
  refine ⟨rfl, le_max_left 0 n, rfl, le_max_left 0 n,
    fun _ _ _ => rfl, fun _ _ => rfl, ?_⟩
  intro store id delta x hx hid
  have heq : (if x.id = id then { x with quantity := x.quantity + delta } else x)
      = { x with quantity := x.quantity + delta } := if_pos hid
  exact heq ▸ List.mem_map_of_mem _ hx

/-- Witness for C8: a negative edit input is clamped to 0 in the client,
while the API stores the unclamped sum 5 + (−9) = −4. -/
theorem quantity_clamp_spec_witness :
    (setDraftQuantity initialDraft (-7)).quantity = max 0 (-7)
    ∧ { rowQ5 with quantity := rowQ5.quantity + (-9) }
        ∈ getItems (updateQuantity [rowQ5] 1 (-9)).1
    ∧ rowQ5.quantity + (-9) = -4 := by
  have h := quantity_clamp_spec itemD initialDraft (-7)
  exact ⟨h.2.2.1, h.2.2.2.2.2.2 [rowQ5] 1 (-9) rowQ5 (by decide) (by decide),
    by decide⟩

end SimpleStage
